import Mathlib

/-!
Verification of the scheduling core of NextGen Manager (src/main.py).

The Python program stores confirmed slots and pending proposals as rows of
two spreadsheet worksheets and keeps the registered team chat id in a meta
sheet.  We embed the rows as Lean structures over strings, the pair of
sheets plus the meta value as a `SheetState`, and each handler
(`addslot`, the `confirm:`/`cancel:` callback branches of `handle_callback`,
and `check_reminders`) as a pure state-transition function.  Instants are
minutes counted from day 0 of a proleptic Gregorian calendar, which is a
faithful order-embedding of the `datetime` values the program compares
(all `datetime`s built by `make_dt` carry the same fixed tzinfo, so
comparison is lexicographic on (date, time-of-day)).
-/

namespace NextGen

/-- Digit value of a character, as used when parsing decimal fields. -/
def digitVal (c : Char) : Nat := c.toNat - 48

/-- Decimal number denoted by a list of digit characters. -/
def natOfDigits (cs : List Char) : Nat :=
  cs.foldl (fun n c => n * 10 + digitVal c) 0

/-- Semantics of `datetime.strptime(time_str, "%H:%M")` (src/main.py line 178)
on the character list: the whole input must be one-or-two digits, a colon,
then one-or-two digits (the `\d{1,2}` regexes `strptime` compiles for `%H`
and `%M`, full-match), with hour in 0..23 and minute in 0..59.
Returns `(hour, minute)`. -/
def parseTimeChars (cs : List Char) : Option (Nat × Nat) :=
  let hh := cs.takeWhile (fun c => !(c == ':'))
  match cs.dropWhile (fun c => !(c == ':')) with
  | ':' :: mm =>
    if hh.all Char.isDigit && mm.all Char.isDigit &&
       decide (1 ≤ hh.length) && decide (hh.length ≤ 2) &&
       decide (1 ≤ mm.length) && decide (mm.length ≤ 2) &&
       decide (natOfDigits hh ≤ 23) && decide (natOfDigits mm ≤ 59) then
      some (natOfDigits hh, natOfDigits mm)
    else none
  | _ => none

/-- Semantics of `datetime.strptime(time_str, "%H:%M")` on a string. -/
def parseTimeHM (s : String) : Option (Nat × Nat) :=
  parseTimeChars s.data

/-- Worded from the spec, for comparison: a time that "matches 24-hour
`HH:MM`" - exactly two digits, a colon, exactly two digits, hour 0..23,
minute 0..59. -/
def specTimeHHMM (s : String) : Bool :=
  match s.data with
  | [h1, h2, ':', m1, m2] =>
    h1.isDigit && h2.isDigit && m1.isDigit && m2.isDigit &&
    decide (natOfDigits [h1, h2] ≤ 23) && decide (natOfDigits [m1, m2] ≤ 59)
  | _ => false

/-- Worded from the amended claim: a one-or-two-digit hour, a colon, and a
one-or-two-digit minute, hour 0..23, minute 0..59 (the formats `H:M`,
`H:MM`, `HH:M`, `HH:MM`). -/
def specTimeFlexChars : List Char → Bool
  | [x1, x2, x3] =>
    x1.isDigit && x2 == ':' && x3.isDigit &&
    decide (natOfDigits [x1] ≤ 23) && decide (natOfDigits [x3] ≤ 59)
  | [x1, x2, x3, x4] =>
    (x1.isDigit && x2 == ':' && x3.isDigit && x4.isDigit &&
     decide (natOfDigits [x1] ≤ 23) && decide (natOfDigits [x3, x4] ≤ 59)) ||
    (x1.isDigit && x2.isDigit && x3 == ':' && x4.isDigit &&
     decide (natOfDigits [x1, x2] ≤ 23) && decide (natOfDigits [x4] ≤ 59))
  | [x1, x2, x3, x4, x5] =>
    x1.isDigit && x2.isDigit && x3 == ':' && x4.isDigit && x5.isDigit &&
    decide (natOfDigits [x1, x2] ≤ 23) && decide (natOfDigits [x4, x5] ≤ 59)
  | _ => false

/-- String form of `specTimeFlexChars`. -/
def specTimeFlexible (s : String) : Bool :=
  specTimeFlexChars s.data

/-- Gregorian leap-year test. -/
def isLeap (y : Nat) : Bool := y % 4 == 0 && (y % 100 != 0 || y % 400 == 0)

/-- Length of month `m` (1-12) in year `y`. -/
def daysInMonth (y m : Nat) : Nat :=
  if m == 2 then (if isLeap y then 29 else 28)
  else if m == 4 || m == 6 || m == 9 || m == 11 then 30
  else 31

/-- A calendar date as produced by `date.fromisoformat`. -/
structure CalDate where
  year : Nat
  month : Nat
  day : Nat
deriving DecidableEq, Repr

/-- Semantics of `date.fromisoformat(date_str)` (src/main.py line 177): the
string must be exactly `YYYY-MM-DD` with a valid Gregorian date
(year 1..9999). -/
def parseDateISO (s : String) : Option CalDate :=
  match s.data with
  | [y1, y2, y3, y4, c1, m1, m2, c2, d1, d2] =>
    if c1 == '-' && c2 == '-' &&
       [y1, y2, y3, y4, m1, m2, d1, d2].all Char.isDigit then
      let y := natOfDigits [y1, y2, y3, y4]
      let m := natOfDigits [m1, m2]
      let d := natOfDigits [d1, d2]
      if 1 ≤ y && 1 ≤ m && m ≤ 12 && 1 ≤ d && d ≤ daysInMonth y m then
        some ⟨y, m, d⟩
      else none
    else none
  | _ => none

/-- Days of year `y` that precede month `m`. -/
def daysBeforeMonth (y m : Nat) : Nat :=
  (List.range (m - 1)).foldl (fun acc k => acc + daysInMonth y (k + 1)) 0

/-- Day count of a date from the proleptic Gregorian day 0001-01-01. -/
def dayNumber (d : CalDate) : Nat :=
  let y := d.year - 1
  365 * y + y / 4 - y / 100 + y / 400 + daysBeforeMonth d.year d.month + (d.day - 1)

/-- Embedding of `make_dt(date_str, time_str)` (src/main.py lines 176-182), returning the
instant as minutes on the shared-timezone timeline; `none` is the
exception path (invalid date or time). -/
def makeDt (dateStr timeStr : String) : Option Nat :=
  match parseDateISO dateStr, parseTimeHM timeStr with
  | some d, some (h, m) => some (dayNumber d * 1440 + h * 60 + m)
  | _, _ => none

/-- Embedding of `overlaps(a_start, a_end, b_start, b_end)` (src/main.py lines 184-185). -/
def overlaps (aStart aEnd bStart bEnd : Nat) : Bool :=
  decide (aStart < bEnd) && decide (bStart < aEnd)

/-- A row of the `slots` worksheet (confirmed slots; header at
src/main.py line 86). All cells are strings, as returned by
`get_all_records` on rows appended by this program. -/
structure SlotRec where
  id : String
  date : String
  start_time : String
  end_time : String
  username : String
  first_name : String
  user_id : String
  details : String
  created_at : String
  reminder_sent : String
deriving DecidableEq, Repr

/-- A row of the `pending` worksheet (proposals; header at
src/main.py line 93). -/
structure PendingRec where
  id : String
  date : String
  start_time : String
  end_time : String
  username : String
  first_name : String
  user_id : String
  details : String
  created_at : String
deriving DecidableEq, Repr

/-- The mutable store: the two worksheets (row order preserved, appends at
the end) and the `team_chat_id` meta value. -/
structure SheetState where
  slots : List SlotRec
  pending : List PendingRec
  team_chat : Option String
deriving DecidableEq, Repr

/-- The requesting Telegram user, as the handlers read it
(`user.username or ""`, `str(user.id)`, ...). -/
structure UserInfo where
  user_id : String
  username : String
  first_name : String
deriving DecidableEq, Repr

/-- First pending row whose `id` cell equals the given id (the loop of
`get_pending_record`, src/main.py lines 146-151). -/
def findPendingById : List PendingRec → String → Option PendingRec
  | [], _ => none
  | r :: rs, slotId =>
    if r.id == slotId then some r else findPendingById rs slotId

/-- Embedding of `get_pending_record` (src/main.py lines 146-151). -/
def getPendingRecord (st : SheetState) (slotId : String) : Option PendingRec :=
  findPendingById st.pending slotId

/-- Embedding of `delete_pending` (src/main.py lines 153-158): delete the first pending
row matching the id, if any. -/
def erasePendingById (l : List PendingRec) (slotId : String) : List PendingRec :=
  match l with
  | [] => []
  | r :: rs => if r.id == slotId then rs else r :: erasePendingById rs slotId

/-- Embedding of `update_reminder_sent` (src/main.py lines 160-166): write `"yes"` into
the reminder column of the first slot row matching the id, if any. -/
def setFlagById (l : List SlotRec) (slotId : String) : List SlotRec :=
  match l with
  | [] => []
  | r :: rs =>
    if r.id == slotId then { r with reminder_sent := "yes" } :: rs
    else r :: setFlagById rs slotId

/-- The truth value the reminder scan reads off the `reminder_sent` cell:
`str(...).strip().lower() == "yes"` (src/main.py line 490). -/
def reminderFlag (s : String) : Bool :=
  (((s.data.dropWhile Char.isWhitespace).reverse.dropWhile
      Char.isWhitespace).reverse.map Char.toLower) == ['y', 'e', 's']

/-- Outcome of the `/addslot` handler, abstracting the chat messages it
sends. -/
inductive AddslotOutcome where
  | noTeam
  | badTimeFormat
  | badDateTime
  | validationError
  | addedConfirmed
  | proposalCreated (overlapsFound : List SlotRec)
deriving DecidableEq, Repr

/-- The overlap scan of `/addslot` (src/main.py lines 268-279): keep, in
row order, the confirmed rows on the candidate's date whose times parse
and whose interval overlaps the candidate. -/
def overlapScan (slots : List SlotRec) (dateStr : String) (startDt endDt : Nat) :
    List SlotRec :=
  slots.filter (fun rec =>
    rec.date == dateStr &&
    match makeDt rec.date rec.start_time, makeDt rec.date rec.end_time with
    | some os, some oe => overlaps startDt endDt os oe
    | _, _ => false)

/-- Embedding of `/addslot` (src/main.py lines 210-305) from the point where the
transport layer has split the arguments into date, start, end and details.
`slotId` and `createdAt` stand for the fresh uuid and the clock reading;
the in-group check and argument tokenizing are transport glue outside this
embedding. -/
def addslot (st : SheetState) (u : UserInfo)
    (slotId dateStr startStr endStr details createdAt : String) :
    SheetState × AddslotOutcome :=
  match st.team_chat with
  | none => (st, .noTeam)
  | some _ =>
    if (parseTimeHM startStr).isNone || (parseTimeHM endStr).isNone then
      (st, .badTimeFormat)
    else
      match makeDt dateStr startStr, makeDt dateStr endStr with
      | some startDt, some endDt =>
        if !(decide (startDt < endDt)) then (st, .validationError)
        else
          let found := overlapScan st.slots dateStr startDt endDt
          if found.isEmpty then
            ({ st with slots := st.slots ++
                [⟨slotId, dateStr, startStr, endStr, u.username, u.first_name,
                  u.user_id, details, createdAt, ""⟩] },
             .addedConfirmed)
          else
            ({ st with pending := st.pending ++
                [⟨slotId, dateStr, startStr, endStr, u.username, u.first_name,
                  u.user_id, details, createdAt⟩] },
             .proposalCreated found)
      | _, _ => (st, .badDateTime)

/-- The confirmed row built from a pending row on confirmation
(src/main.py lines 327-338): same cells, reminder column `""`. -/
def slotOfPending (p : PendingRec) : SlotRec :=
  ⟨p.id, p.date, p.start_time, p.end_time, p.username, p.first_name,
   p.user_id, p.details, p.created_at, ""⟩

/-- Outcome of a `confirm:`/`cancel:` callback, abstracting the message
edits. In `confirmed`, the list is the overlap list shown in the group
announcement; `none` there is the uncaught exception the code raises after
the mutation when the pending row's own date or times fail to parse
(src/main.py lines 343-344 are outside any `try`). -/
inductive CallbackOutcome where
  | notFound
  | unauthorized
  | confirmed (overlapsShown : Option (List SlotRec))
  | cancelled
deriving DecidableEq, Repr

/-- The overlap recomputation of the confirm branch (src/main.py lines
342-355): scan the confirmed collection as it stands after the insertion,
skipping the row with the confirmed id itself, keeping same-date parsed
rows that overlap. -/
def confirmOverlapScan (slots : List SlotRec) (slotId pDate : String)
    (startDt endDt : Nat) : List SlotRec :=
  slots.filter (fun rec =>
    !(rec.id == slotId) &&
    match makeDt rec.date rec.start_time, makeDt rec.date rec.end_time with
    | some os, some oe => rec.date == pDate && overlaps startDt endDt os oe
    | _, _ => false)

/-- The `confirm:` branch of `handle_callback` (src/main.py lines 315-368).
`actorId` is `str(query.from_user.id)`. Note the branch mutates the store
without consulting `team_chat`; registration only gates the group
announcement. -/
def confirmCallback (st : SheetState) (actorId slotId : String) :
    SheetState × CallbackOutcome :=
  match getPendingRecord st slotId with
  | none => (st, .notFound)
  | some p =>
    if !(actorId == p.user_id) then (st, .unauthorized)
    else
      let slots1 := st.slots ++ [slotOfPending p]
      let ov :=
        match makeDt p.date p.start_time, makeDt p.date p.end_time with
        | some sdt, some edt => some (confirmOverlapScan slots1 slotId p.date sdt edt)
        | _, _ => none
      ({ st with slots := slots1, pending := erasePendingById st.pending slotId },
       .confirmed ov)

/-- The `cancel:` branch of `handle_callback` (src/main.py lines 370-381). -/
def cancelCallback (st : SheetState) (actorId slotId : String) :
    SheetState × CallbackOutcome :=
  match getPendingRecord st slotId with
  | none => (st, .notFound)
  | some p =>
    if !(actorId == p.user_id) then (st, .unauthorized)
    else ({ st with pending := erasePendingById st.pending slotId }, .cancelled)

/-- Whether a confirmed row is due a reminder on a tick at `now`
(src/main.py lines 489-496): flag not `"yes"`, start time parses, and
`now < start <= now + 15` minutes. -/
def dueForReminder (now : Nat) (rec : SlotRec) : Bool :=
  !(reminderFlag rec.reminder_sent) &&
  match makeDt rec.date rec.start_time with
  | some sdt => decide (now < sdt) && decide (sdt ≤ now + 15)
  | none => false

/-- Result of one reminder tick: the new store, the rows for which a
notification was attempted, and those actually delivered. -/
structure TickResult where
  state : SheetState
  attempted : List SlotRec
  delivered : List SlotRec
deriving DecidableEq, Repr

/-- Embedding of `check_reminders` (src/main.py lines 483-502). `now` is the clock in
minutes; `sendFails rec` says whether emitting the notification for `rec`
raises (the `except` at line 500 - delivery failure does not stop the flag
update at line 502). The loop iterates over the snapshot of rows read at
line 489 and flags each due row by id. -/
def checkReminders (st : SheetState) (now : Nat) (sendFails : SlotRec → Bool) :
    TickResult :=
  match st.team_chat with
  | none => ⟨st, [], []⟩
  | some _ =>
    let due := st.slots.filter (dueForReminder now)
    ⟨{ st with slots := due.foldl (fun acc rec => setFlagById acc rec.id) st.slots },
     due, due.filter (fun rec => !(sendFails rec))⟩

/-- Sample requesting user for concrete instantiations. -/
def userW : UserInfo := ⟨"7", "uma", "Uma"⟩

/-- Sample confirmed row: 09:00-10:00 on 2024-05-20, owned by user 7. -/
def recA : SlotRec :=
  ⟨"s1", "2024-05-20", "09:00", "10:00", "uma", "Uma", "7", "standup", "t0", ""⟩

/-- Sample pending row: 09:30-10:30 on 2024-05-20, owned by user 8. -/
def pendB : PendingRec :=
  ⟨"p1", "2024-05-20", "09:30", "10:30", "raj", "Raj", "8", "sync", "t1"⟩

/-- Sample store with one confirmed slot, one pending proposal and a
registered team chat. -/
def stW : SheetState := ⟨[recA], [pendB], some "g1"⟩

/-- A digit character is not the colon. -/
lemma digit_ne_colon {c : Char} (h : c.isDigit = true) : (c == ':') = false := by
  cases hbe : c == ':'
  · rfl
  · exact absurd h (by rw [eq_of_beq hbe]; decide)

/-- Splitting at the colon recovers the two digit groups. -/
lemma takeWhile_digits (hh mm : List Char) (hhd : hh.all Char.isDigit = true) :
    (hh ++ ':' :: mm).takeWhile (fun c => !(c == ':')) = hh ∧
    (hh ++ ':' :: mm).dropWhile (fun c => !(c == ':')) = ':' :: mm := by
  induction hh with
  | nil => constructor <;> simp [List.takeWhile_cons, List.dropWhile_cons]
  | cons c cs ih =>
    have hc : (c == ':') = false :=
      digit_ne_colon (by simp [List.all_cons] at hhd; exact hhd.1)
    have ih' := ih (by simp [List.all_cons] at hhd ⊢; exact hhd.2)
    constructor <;> simp [List.takeWhile_cons, List.dropWhile_cons, hc, ih'.1, ih'.2]

/-- The `strptime("%H:%M")` embedding accepts a character list exactly when
it has the flexible one-or-two-digit shape of `specTimeFlexChars`. -/
lemma parseTimeChars_isSome_iff (cs : List Char) :
    (parseTimeChars cs).isSome = specTimeFlexChars cs := by
  rw [Bool.eq_iff_iff]
  constructor
  · intro h
    simp only [parseTimeChars] at h
    split at h
    case _ mm heq =>
      split at h
      case isFalse => simp at h
      case isTrue hcond =>
        have hcs : cs = cs.takeWhile (fun c => !(c == ':')) ++ ':' :: mm := by
          conv_lhs =>
            rw [← List.takeWhile_append_dropWhile (p := fun c => !(c == ':')) (l := cs)]
          rw [heq]
        simp only [Bool.and_eq_true, decide_eq_true_eq] at hcond
        obtain ⟨⟨⟨⟨⟨⟨⟨hhd, hmd⟩, hl1⟩, hl2⟩, hl3⟩, hl4⟩, hn1⟩, hn2⟩ := hcond
        generalize hgen : cs.takeWhile (fun c => !(c == ':')) = hh at hcs hhd hl1 hl2 hn1
        subst hcs
        match hh, hl1, hl2 with
        | [a], _, _ =>
          match mm, hl3, hl4 with
          | [c], _, _ =>
            simp [List.all_cons] at hhd hmd
            simp [specTimeFlexChars, hhd, hmd, hn1, hn2]
          | [c, d], _, _ =>
            simp [List.all_cons] at hhd hmd
            simp [specTimeFlexChars, hhd, hmd.1, hmd.2, hn1, hn2]
        | [a, b], _, _ =>
          match mm, hl3, hl4 with
          | [c], _, _ =>
            simp [List.all_cons] at hhd hmd
            simp [specTimeFlexChars, hhd.1, hhd.2, hmd, hn1, hn2]
          | [c, d], _, _ =>
            simp [List.all_cons] at hhd hmd
            simp [specTimeFlexChars, hhd.1, hhd.2, hmd.1, hmd.2, hn1, hn2]
    case _ =>
      simp at h
  · intro h
    match cs, h with
    | [x1, x2, x3], h =>
      simp only [specTimeFlexChars, Bool.and_eq_true, Bool.or_eq_true, decide_eq_true_eq,
        beq_iff_eq] at h
      obtain ⟨⟨⟨⟨h1, h2⟩, h3⟩, h4⟩, h5⟩ := h
      subst h2
      have tw := takeWhile_digits [x1] [x3] (by simp [List.all_cons, h1])
      simp only [List.cons_append, List.nil_append] at tw
      simp [parseTimeChars, tw.1, tw.2, List.all_cons, h1, h3, h4, h5]
    | [x1, x2, x3, x4], h =>
      simp only [specTimeFlexChars, Bool.and_eq_true, Bool.or_eq_true, decide_eq_true_eq,
        beq_iff_eq] at h
      rcases h with ⟨⟨⟨⟨⟨h1, h2⟩, h3⟩, h4⟩, h5⟩, h6⟩ | ⟨⟨⟨⟨⟨h1, h2⟩, h3⟩, h4⟩, h5⟩, h6⟩
      · subst h2
        have tw := takeWhile_digits [x1] [x3, x4] (by simp [List.all_cons, h1])
        simp only [List.cons_append, List.nil_append] at tw
        simp [parseTimeChars, tw.1, tw.2, List.all_cons, h1, h3, h4, h5, h6]
      · subst h3
        have tw := takeWhile_digits [x1, x2] [x4]
          (by simp [List.all_cons, h1, h2])
        simp only [List.cons_append, List.nil_append] at tw
        simp [parseTimeChars, tw.1, tw.2, List.all_cons, h1, h2, h4, h5, h6]
    | [x1, x2, x3, x4, x5], h =>
      simp only [specTimeFlexChars, Bool.and_eq_true, Bool.or_eq_true, decide_eq_true_eq,
        beq_iff_eq] at h
      obtain ⟨⟨⟨⟨⟨⟨h1, h2⟩, h3⟩, h4⟩, h5⟩, h6⟩, h7⟩ := h
      subst h3
      have tw := takeWhile_digits [x1, x2] [x4, x5]
        (by simp [List.all_cons, h1, h2])
      simp only [List.cons_append, List.nil_append] at tw
      simp [parseTimeChars, tw.1, tw.2, List.all_cons, h1, h2, h4, h5, h6, h7]

/-- Read a concrete resolved instant back out of a `makeDt` equation. -/
lemma eq_getD_of_eq_some {x : Nat} {o : Option Nat} (h : o = some x) : x = o.getD 0 := by
  rw [h]; rfl

/-- C1: for instants `aStart < aEnd` and `bStart < bEnd`, the overlap
predicate holds iff `aStart < bEnd` and `bStart < aEnd`; touching intervals
such as `[09:00,10:00)` and `[10:00,11:00)` do not overlap, while
`[09:00,10:30)` and `[10:00,11:00)` do. -/
theorem overlaps_halfopen_C1 (aStart aEnd bStart bEnd : Nat)
    (h1 : aStart < aEnd) (h2 : bStart < bEnd) :
    (overlaps aStart aEnd bStart bEnd = true ↔ (aStart < bEnd ∧ bStart < aEnd)) ∧
    (∀ s1 e1 s2 e2 : Nat,
      makeDt "2024-05-20" "09:00" = some s1 → makeDt "2024-05-20" "10:00" = some e1 →
      makeDt "2024-05-20" "10:00" = some s2 → makeDt "2024-05-20" "11:00" = some e2 →
      overlaps s1 e1 s2 e2 = false) ∧
    (∀ s1 e1 s2 e2 : Nat,
      makeDt "2024-05-20" "09:00" = some s1 → makeDt "2024-05-20" "10:30" = some e1 →
      makeDt "2024-05-20" "10:00" = some s2 → makeDt "2024-05-20" "11:00" = some e2 →
      overlaps s1 e1 s2 e2 = true) := by
  refine ⟨by simp [overlaps, Bool.and_eq_true, decide_eq_true_eq], ?_, ?_⟩ <;>
  · intro s1 e1 s2 e2 hA hB hC hD
    rw [eq_getD_of_eq_some hA, eq_getD_of_eq_some hB, eq_getD_of_eq_some hC,
      eq_getD_of_eq_some hD]
    decide

/-- C1 witness: the theorem applied at the concrete instants 540, 600,
600, 660 (the minutes of 09:00, 10:00, 10:00, 11:00 within one day). -/
theorem overlaps_halfopen_C1_witness :
    overlaps 540 600 600 660 = true ↔ (540 < 660 ∧ 600 < 600) :=
  (overlaps_halfopen_C1 540 600 600 660 (by decide) (by decide)).1

/-- C7 counterexample: on input date `2024-03-01` (a valid calendar date)
and time `9:05`, the time does not match the two-digit `HH:MM` format the
claim names, yet `make_dt` succeeds rather than failing - so failure does
not happen exactly on non-`HH:MM` inputs. -/
theorem makeDt_hhmm_C7_cex :
    specTimeHHMM "9:05" = false ∧ (parseDateISO "2024-03-01").isSome = true ∧
    (makeDt "2024-03-01" "9:05").isSome = true := by
  refine ⟨by decide, by decide, by decide⟩

/-- C7 (amended): `make_dt` succeeds exactly when the date is a valid
`YYYY-MM-DD` calendar date and the time has a one-or-two-digit hour,
a colon, and a one-or-two-digit minute with hour 0..23 and minute 0..59;
on success it returns the instant combining the two on the shared
timeline. -/
theorem makeDt_valid_iff_C7 (d t : String) :
    ((makeDt d t).isSome = true ↔
      ((parseDateISO d).isSome = true ∧ specTimeFlexible t = true)) ∧
    (∀ dd h2 m2, parseDateISO d = some dd → parseTimeHM t = some (h2, m2) →
      makeDt d t = some (dayNumber dd * 1440 + h2 * 60 + m2)) := by
  constructor
  · have hpt : (parseTimeHM t).isSome = specTimeFlexible t :=
      parseTimeChars_isSome_iff t.data
    rw [← hpt]
    unfold makeDt
    cases hd : parseDateISO d <;> cases ht : parseTimeHM t <;>
      simp [hd, ht]
  · intro dd h2 m2 hd ht
    simp [makeDt, hd, ht]

/-- C7 witness: the amended theorem applied at date `2024-03-01` and time
`9:5`, both accepted, giving the combined instant. -/
theorem makeDt_valid_iff_C7_witness :
    makeDt "2024-03-01" "9:5" = some (dayNumber ⟨2024, 3, 1⟩ * 1440 + 9 * 60 + 5) :=
  (makeDt_valid_iff_C7 "2024-03-01" "9:5").2 ⟨2024, 3, 1⟩ 9 5 (by decide) (by decide)

/-- A successful `make_dt` means both the date and the time parsed. -/
lemma makeDt_parts {d t : String} {v : Nat} (h : makeDt d t = some v) :
    (parseDateISO d).isSome = true ∧ (parseTimeHM t).isSome = true := by
  unfold makeDt at h
  rcases hd : parseDateISO d with _ | dd <;> rw [hd] at h
  · simp at h
  · rcases ht : parseTimeHM t with _ | ⟨h2, m2⟩ <;> rw [ht] at h
    · simp at h
    · simp [hd, ht]

/-- A found pending row is the first id match, and deleting by that id
removes exactly that row. -/
lemma findPendingById_eq_some {l : List PendingRec} {slotId : String} {p : PendingRec}
    (h : findPendingById l slotId = some p) :
    p.id = slotId ∧ ∃ l1 l2, l = l1 ++ p :: l2 ∧
      (∀ r ∈ l1, r.id ≠ slotId) ∧ erasePendingById l slotId = l1 ++ l2 := by
  induction l with
  | nil => simp [findPendingById] at h
  | cons r rs ih =>
    cases hb : r.id == slotId
    · simp only [findPendingById, hb, Bool.false_eq_true, if_false] at h
      obtain ⟨hid, l1, l2, hsplit, hfl, herase⟩ := ih h
      exact ⟨hid, r :: l1, l2, by simp [hsplit],
        by
          intro r' hr'
          rcases List.mem_cons.mp hr' with rfl | hr''
          · exact fun hc => by simp [hc] at hb
          · exact hfl r' hr'',
        by simp [erasePendingById, hb, herase]⟩
    · simp only [findPendingById, hb, if_true] at h
      obtain rfl : r = p := by injection h
      exact ⟨eq_of_beq hb, [], rs, by simp, by simp,
        by simp [erasePendingById, hb]⟩

/-- If no row of the list has the id, lookup by that id misses. -/
lemma findPendingById_eq_none {l : List PendingRec} {slotId : String}
    (h : ∀ r ∈ l, r.id ≠ slotId) : findPendingById l slotId = none := by
  induction l with
  | nil => rfl
  | cons r rs ih =>
    have hb : (r.id == slotId) = false :=
      beq_eq_false_iff_ne.mpr (h r (List.mem_cons_self r rs))
    simp [findPendingById, hb, ih (fun r' h' => h r' (List.mem_cons_of_mem r h'))]

/-- With no duplicate pending ids, a deleted id can no longer be found. -/
lemma findPendingById_erase_self {l : List PendingRec} {slotId : String}
    (hnd : (l.map PendingRec.id).Nodup) :
    findPendingById (erasePendingById l slotId) slotId = none := by
  induction l with
  | nil => rfl
  | cons r rs ih =>
    rw [List.map_cons] at hnd
    obtain ⟨hhead, htail⟩ := List.nodup_cons.mp hnd
    cases hb : r.id == slotId
    · have hb' : (r.id == slotId) = false := hb
      simp [erasePendingById, hb', findPendingById, ih htail]
    · have hid : r.id = slotId := eq_of_beq hb
      have : ∀ r' ∈ rs, r'.id ≠ slotId := by
        intro r' hr' hc
        exact hhead (hid ▸ hc ▸ List.mem_map_of_mem PendingRec.id hr')
      simp [erasePendingById, hb, findPendingById_eq_none this]

/-- C4: a confirm or cancel attempt by an actor other than the proposal's
owner returns the authorization failure and leaves the store - both the
pending and confirmed collections - unchanged. -/
theorem callback_nonowner_noop_C4 (st : SheetState) (actorId slotId : String)
    (p : PendingRec) (hfind : getPendingRecord st slotId = some p)
    (hne : actorId ≠ p.user_id) :
    confirmCallback st actorId slotId = (st, .unauthorized) ∧
    cancelCallback st actorId slotId = (st, .unauthorized) := by
  have hb : (actorId == p.user_id) = false := beq_eq_false_iff_ne.mpr hne
  exact ⟨by simp [confirmCallback, hfind, hb], by simp [cancelCallback, hfind, hb]⟩

/-- C4 witness: user 9 can neither confirm nor cancel user 8's pending
proposal `p1`. -/
theorem callback_nonowner_noop_C4_witness :
    confirmCallback stW "9" "p1" = (stW, .unauthorized) ∧
    cancelCallback stW "9" "p1" = (stW, .unauthorized) :=
  callback_nonowner_noop_C4 stW "9" "p1" pendB (by decide) (by decide)

/-- C6: confirm and cancel on an id absent from the pending collection
return not-found and change nothing; and a pending id just resolved by an
owner cancel or confirm (with pending ids unique) is absent afterwards, so
re-invocation finds nothing. -/
theorem callback_notfound_C6 (st : SheetState) (slotId actorId : String)
    (habsent : getPendingRecord st slotId = none) :
    (confirmCallback st actorId slotId = (st, .notFound) ∧
     cancelCallback st actorId slotId = (st, .notFound)) ∧
    (∀ st' (p : PendingRec), (st'.pending.map PendingRec.id).Nodup →
      getPendingRecord st' slotId = some p →
      getPendingRecord (cancelCallback st' p.user_id slotId).1 slotId = none ∧
      getPendingRecord (confirmCallback st' p.user_id slotId).1 slotId = none) := by
  refine ⟨⟨by simp [confirmCallback, habsent], by simp [cancelCallback, habsent]⟩, ?_⟩
  intro st' p hnd hfind
  constructor
  · simp only [cancelCallback, hfind, beq_self_eq_true, Bool.not_true,
      Bool.false_eq_true, if_false]
    exact findPendingById_erase_self hnd
  · simp only [confirmCallback, hfind, beq_self_eq_true, Bool.not_true,
      Bool.false_eq_true, if_false]
    exact findPendingById_erase_self hnd

/-- C6 witness: confirming or cancelling id `p1` in a store without it
changes nothing, and after user 8 cancels `p1` in `stW` the id `p1` is no
longer pending. -/
theorem callback_notfound_C6_witness :
    (confirmCallback ⟨[recA], [], some "g1"⟩ "7" "p1"
       = (⟨[recA], [], some "g1"⟩, .notFound) ∧
     cancelCallback ⟨[recA], [], some "g1"⟩ "7" "p1"
       = (⟨[recA], [], some "g1"⟩, .notFound)) ∧
    getPendingRecord (cancelCallback stW "8" "p1").1 "p1" = none :=
  ⟨(callback_notfound_C6 ⟨[recA], [], some "g1"⟩ "p1" "7" (by decide)).1,
   ((callback_notfound_C6 ⟨[recA], [], some "g1"⟩ "p1" "7" (by decide)).2 stW pendB
     (by decide) (by decide)).1⟩

/-- C9: a creation request whose start is not strictly before its end is
rejected with the validation error, with both collections unchanged, and
the rejection does not depend on the stored collections at all (so the
overlap scan is never consulted). -/
theorem addslot_validation_C9 (st : SheetState) (c : String) (u : UserInfo)
    (slotId dateStr startStr endStr details createdAt : String)
    (hteam : st.team_chat = some c) (sdt edt : Nat)
    (hs : makeDt dateStr startStr = some sdt) (he : makeDt dateStr endStr = some edt)
    (hge : ¬ sdt < edt) :
    addslot st u slotId dateStr startStr endStr details createdAt
      = (st, .validationError) ∧
    (∀ slots' pend',
      addslot ⟨slots', pend', st.team_chat⟩ u slotId dateStr startStr endStr details
          createdAt
        = (⟨slots', pend', st.team_chat⟩, .validationError)) := by
  obtain ⟨x1, hx1⟩ := Option.isSome_iff_exists.mp (makeDt_parts hs).2
  obtain ⟨x2, hx2⟩ := Option.isSome_iff_exists.mp (makeDt_parts he).2
  constructor
  · simp [addslot, hteam, hx1, hx2, hs, he, hge]
  · intro slots' pend'
    simp [addslot, hteam, hx1, hx2, hs, he, hge]

/-- C9 witness: creating `10:00-09:00` on 2024-05-20 is rejected with the
store untouched. -/
theorem addslot_validation_C9_witness :
    addslot stW userW "n1" "2024-05-20" "10:00" "09:00" "x" "t2"
      = (stW, .validationError) :=
  (addslot_validation_C9 stW "g1" userW "n1" "2024-05-20" "10:00" "09:00" "x" "t2"
    rfl ((makeDt "2024-05-20" "10:00").getD 0) ((makeDt "2024-05-20" "09:00").getD 0)
    (by decide) (by decide) (by decide)).1

/-- C3: a valid creation request (parsed date and times, start before end,
registered team) either, with no same-date confirmed conflict, appends
exactly one confirmed row and no proposal, or, with a conflict, appends
exactly one proposal and no confirmed row. -/
theorem addslot_branches_C3 (st : SheetState) (c : String) (u : UserInfo)
    (slotId dateStr startStr endStr details createdAt : String)
    (hteam : st.team_chat = some c) (sdt edt : Nat)
    (hs : makeDt dateStr startStr = some sdt) (he : makeDt dateStr endStr = some edt)
    (hlt : sdt < edt) :
    (overlapScan st.slots dateStr sdt edt = [] →
      addslot st u slotId dateStr startStr endStr details createdAt
        = ({ st with slots := st.slots ++
            [⟨slotId, dateStr, startStr, endStr, u.username, u.first_name, u.user_id,
              details, createdAt, ""⟩] }, .addedConfirmed)) ∧
    (overlapScan st.slots dateStr sdt edt ≠ [] →
      addslot st u slotId dateStr startStr endStr details createdAt
        = ({ st with pending := st.pending ++
            [⟨slotId, dateStr, startStr, endStr, u.username, u.first_name, u.user_id,
              details, createdAt⟩] },
           .proposalCreated (overlapScan st.slots dateStr sdt edt))) := by
  obtain ⟨x1, hx1⟩ := Option.isSome_iff_exists.mp (makeDt_parts hs).2
  obtain ⟨x2, hx2⟩ := Option.isSome_iff_exists.mp (makeDt_parts he).2
  constructor
  · intro hov
    simp [addslot, hteam, hx1, hx2, hs, he, hlt, hov]
  · intro hov
    rcases hscan : overlapScan st.slots dateStr sdt edt with _ | ⟨a, rest⟩
    · exact absurd hscan hov
    · simp [addslot, hteam, hx1, hx2, hs, he, hlt, hscan]

/-- C3 witness: in `stW`, creating 11:00-12:00 inserts a confirmed row
directly, while creating 09:30-10:30 (conflicting with `recA`) creates one
proposal and no confirmed row. -/
theorem addslot_branches_C3_witness :
    addslot stW userW "n2" "2024-05-20" "11:00" "12:00" "lunch" "t3"
      = ({ stW with slots := stW.slots ++
          [⟨"n2", "2024-05-20", "11:00", "12:00", "uma", "Uma", "7", "lunch", "t3",
            ""⟩] }, .addedConfirmed) ∧
    addslot stW userW "n3" "2024-05-20" "09:30" "10:30" "clash" "t4"
      = ({ stW with pending := stW.pending ++
          [⟨"n3", "2024-05-20", "09:30", "10:30", "uma", "Uma", "7", "clash", "t4"⟩] },
         .proposalCreated [recA]) :=
  ⟨(addslot_branches_C3 stW "g1" userW "n2" "2024-05-20" "11:00" "12:00" "lunch" "t3"
      rfl ((makeDt "2024-05-20" "11:00").getD 0) ((makeDt "2024-05-20" "12:00").getD 0)
      (by decide) (by decide) (by decide)).1 (by decide),
   (addslot_branches_C3 stW "g1" userW "n3" "2024-05-20" "09:30" "10:30" "clash" "t4"
      rfl ((makeDt "2024-05-20" "09:30").getD 0) ((makeDt "2024-05-20" "10:30").getD 0)
      (by decide) (by decide) (by decide)).2 (by decide)⟩

/-- C10: the overlap check of slot creation reads only the confirmed
collection - the outcome is the same whatever the pending collection
holds - and with no confirmed conflict the candidate is inserted directly
as confirmed with no proposal created, even if pending proposals overlap
it. -/
theorem addslot_pending_ignored_C10 (st : SheetState) (c : String) (u : UserInfo)
    (slotId dateStr startStr endStr details createdAt : String)
    (hteam : st.team_chat = some c) (sdt edt : Nat)
    (hs : makeDt dateStr startStr = some sdt) (he : makeDt dateStr endStr = some edt)
    (hlt : sdt < edt) :
    (∀ pend1 pend2 : List PendingRec,
      (addslot ⟨st.slots, pend1, st.team_chat⟩ u slotId dateStr startStr endStr details
          createdAt).2
        = (addslot ⟨st.slots, pend2, st.team_chat⟩ u slotId dateStr startStr endStr
            details createdAt).2) ∧
    (overlapScan st.slots dateStr sdt edt = [] →
      ∀ pend' : List PendingRec,
        addslot ⟨st.slots, pend', st.team_chat⟩ u slotId dateStr startStr endStr details
            createdAt
          = (⟨st.slots ++
              [⟨slotId, dateStr, startStr, endStr, u.username, u.first_name, u.user_id,
                details, createdAt, ""⟩], pend', st.team_chat⟩, .addedConfirmed)) := by
  obtain ⟨x1, hx1⟩ := Option.isSome_iff_exists.mp (makeDt_parts hs).2
  obtain ⟨x2, hx2⟩ := Option.isSome_iff_exists.mp (makeDt_parts he).2
  constructor
  · intro pend1 pend2
    rcases hscan : overlapScan st.slots dateStr sdt edt with _ | ⟨a, rest⟩ <;>
      simp [addslot, hteam, hx1, hx2, hs, he, hlt, hscan]
  · intro hov pend'
    simp [addslot, hteam, hx1, hx2, hs, he, hlt, hov]

/-- C10 witness: a candidate 10:00-11:00 that overlaps only the pending
proposal `pendB` (09:30-10:30) and no confirmed slot is inserted directly
as confirmed. -/
theorem addslot_pending_ignored_C10_witness :
    addslot ⟨[recA], [pendB], some "g1"⟩ userW "n4" "2024-05-20" "10:00" "11:00" "gym"
        "t5"
      = (⟨[recA, ⟨"n4", "2024-05-20", "10:00", "11:00", "uma", "Uma", "7", "gym", "t5",
            ""⟩], [pendB], some "g1"⟩, .addedConfirmed) :=
  (addslot_pending_ignored_C10 stW "g1" userW "n4" "2024-05-20" "10:00" "11:00" "gym"
      "t5" rfl ((makeDt "2024-05-20" "10:00").getD 0)
      ((makeDt "2024-05-20" "11:00").getD 0) (by decide) (by decide) (by decide)).2
    (by decide) [pendB]

/-- The overlap recomputation after the promotion insert equals a scan of
the pre-insert confirmed collection when no confirmed row shares the
promoted id. -/
lemma confirmOverlapScan_append_self (slots : List SlotRec) (p : PendingRec)
    (slotId : String) (sdt edt : Nat) (hpid : p.id = slotId)
    (hid : ∀ r ∈ slots, r.id ≠ slotId) :
    confirmOverlapScan (slots ++ [slotOfPending p]) slotId p.date sdt edt
      = slots.filter (fun rec =>
          match makeDt rec.date rec.start_time, makeDt rec.date rec.end_time with
          | some os, some oe => rec.date == p.date && overlaps sdt edt os oe
          | _, _ => false) := by
  unfold confirmOverlapScan
  rw [List.filter_append]
  have hsingle : (slotOfPending p).id = slotId := hpid
  simp only [List.filter_cons, List.filter_nil, hsingle, beq_self_eq_true, Bool.not_true,
    Bool.false_and, Bool.false_eq_true, if_false, List.append_nil]
  exact List.filter_congr (fun r hr => by
    simp [beq_eq_false_iff_ne.mpr (hid r hr)])

/-- C2: an owner confirm removes exactly the found proposal from the
pending collection and appends exactly one confirmed row copying the
proposal's id, date, times and owner with an unset reminder flag, and the
announced overlap list is recomputed from the confirmed collection as it
stands at confirmation time. -/
theorem confirm_promotes_C2 (st : SheetState) (slotId : String) (p : PendingRec)
    (hfind : getPendingRecord st slotId = some p)
    (sdt edt : Nat) (hs : makeDt p.date p.start_time = some sdt)
    (he : makeDt p.date p.end_time = some edt)
    (hid : ∀ r ∈ st.slots, r.id ≠ slotId) :
    confirmCallback st p.user_id slotId
      = ({ st with slots := st.slots ++ [slotOfPending p],
                   pending := erasePendingById st.pending slotId },
         .confirmed (some (st.slots.filter (fun rec =>
           match makeDt rec.date rec.start_time, makeDt rec.date rec.end_time with
           | some os, some oe => rec.date == p.date && overlaps sdt edt os oe
           | _, _ => false)))) ∧
    ((slotOfPending p).id = p.id ∧ (slotOfPending p).date = p.date ∧
     (slotOfPending p).start_time = p.start_time ∧
     (slotOfPending p).end_time = p.end_time ∧
     (slotOfPending p).user_id = p.user_id ∧
     reminderFlag (slotOfPending p).reminder_sent = false) ∧
    (∃ l1 l2, st.pending = l1 ++ p :: l2 ∧ (∀ r ∈ l1, r.id ≠ slotId) ∧
      erasePendingById st.pending slotId = l1 ++ l2) := by
  obtain ⟨hpid, l1, l2, hsplit, hfl, herase⟩ := findPendingById_eq_some hfind
  refine ⟨?_, ⟨rfl, rfl, rfl, rfl, rfl, (by decide : reminderFlag "" = false)⟩,
    l1, l2, hsplit, hfl, herase⟩
  simp only [confirmCallback, hfind, beq_self_eq_true, Bool.not_true, Bool.false_eq_true,
    if_false, hs, he]
  rw [confirmOverlapScan_append_self st.slots p slotId sdt edt hpid hid]

/-- C2 witness: user 8 confirms proposal `p1`; the proposal is removed, its
copy is appended to the confirmed collection with an unset flag, and the
announcement lists the conflicting `recA`. -/
theorem confirm_promotes_C2_witness :
    confirmCallback stW "8" "p1"
      = ({ stW with slots := stW.slots ++ [slotOfPending pendB],
                    pending := erasePendingById stW.pending "p1" },
         .confirmed (some [recA])) ∧
    reminderFlag (slotOfPending pendB).reminder_sent = false :=
  ⟨(confirm_promotes_C2 stW "p1" pendB (by decide)
      ((makeDt "2024-05-20" "09:30").getD 0) ((makeDt "2024-05-20" "10:30").getD 0)
      (by decide) (by decide) (by decide)).1,
   ((confirm_promotes_C2 stW "p1" pendB (by decide)
      ((makeDt "2024-05-20" "09:30").getD 0) ((makeDt "2024-05-20" "10:30").getD 0)
      (by decide) (by decide) (by decide)).2.1).2.2.2.2.2⟩

/-- C8 counterexample: in a store with no registered destination but a
pending proposal `p1`, the confirm callback invoked by the owner still
mutates both stored collections instead of refusing, so not every
operation other than the tick is a no-op when the registry is unset. -/
theorem unregistered_confirm_mutates_C8_cex :
    (⟨[], [pendB], none⟩ : SheetState).team_chat = none ∧
    (confirmCallback ⟨[], [pendB], none⟩ "8" "p1").1.slots ≠ ([] : List SlotRec) ∧
    (confirmCallback ⟨[], [pendB], none⟩ "8" "p1").1.pending ≠ [pendB] := by
  exact ⟨rfl, by decide, by decide⟩

/-- C8 (amended): with no registered destination, a reminder tick is a
no-op and slot creation refuses without modifying any stored collection;
the inline confirm/cancel callbacks, however, are not gated by the
registry (registration only gates the announcement message). -/
theorem unregistered_noop_C8_amended (st : SheetState) (hteam : st.team_chat = none) :
    (∀ now sendFails, checkReminders st now sendFails = ⟨st, [], []⟩) ∧
    (∀ u slotId dateStr startStr endStr details createdAt,
      addslot st u slotId dateStr startStr endStr details createdAt = (st, .noTeam)) := by
  constructor
  · intro now sendFails
    simp [checkReminders, hteam]
  · intro u slotId dateStr startStr endStr details createdAt
    simp [addslot, hteam]

/-- C8 witness: amended theorem applied at a concrete unregistered store. -/
theorem unregistered_noop_C8_amended_witness :
    checkReminders ⟨[recA], [], none⟩ 0 (fun _ => false) = ⟨⟨[recA], [], none⟩, [], []⟩ ∧
    addslot ⟨[recA], [], none⟩ userW "n9" "2024-05-20" "11:00" "12:00" "x" "t9"
      = (⟨[recA], [], none⟩, .noTeam) :=
  ⟨(unregistered_noop_C8_amended ⟨[recA], [], none⟩ rfl).1 0 (fun _ => false),
   (unregistered_noop_C8_amended ⟨[recA], [], none⟩ rfl).2 userW "n9" "2024-05-20"
     "11:00" "12:00" "x" "t9"⟩

/-- Writing a reminder flag does not change the column of ids. -/
lemma setFlagById_map_id (l : List SlotRec) (i : String) :
    (setFlagById l i).map SlotRec.id = l.map SlotRec.id := by
  induction l with
  | nil => rfl
  | cons r rs ih => cases hb : r.id == i <;> simp [setFlagById, hb, ih]

/-- Rows already satisfying the flagged-at-id property keep it through any
flag write. -/
lemma flag_preserved_setFlagById {l : List SlotRec} {i j : String}
    (h : ∀ r ∈ l, r.id = j → reminderFlag r.reminder_sent = true) :
    ∀ r ∈ setFlagById l i, r.id = j → reminderFlag r.reminder_sent = true := by
  induction l with
  | nil => simp [setFlagById]
  | cons r0 rs ih =>
    intro r hr hj
    have hunf : setFlagById (r0 :: rs) i
        = if r0.id == i then { r0 with reminder_sent := "yes" } :: rs
          else r0 :: setFlagById rs i := rfl
    cases hb : r0.id == i
    · rw [hunf, if_neg (by simp [hb])] at hr
      rcases List.mem_cons.mp hr with rfl | hr'
      · exact h r (List.mem_cons_self _ _) hj
      · exact ih (fun r' h' hj' => h r' (List.mem_cons_of_mem r0 h') hj') r hr' hj
    · rw [hunf, if_pos hb] at hr
      rcases List.mem_cons.mp hr with rfl | hr'
      · exact (by decide : reminderFlag "yes" = true)
      · exact h r (List.mem_cons_of_mem r0 hr') hj

/-- After writing the flag for an id that occurs at most once, every row
with that id is flagged. -/
lemma flag_set_setFlagById {l : List SlotRec} {i : String}
    (hnd : (l.map SlotRec.id).Nodup) :
    ∀ r ∈ setFlagById l i, r.id = i → reminderFlag r.reminder_sent = true := by
  induction l with
  | nil => simp [setFlagById]
  | cons r0 rs ih =>
    rw [List.map_cons] at hnd
    obtain ⟨hhead, htail⟩ := List.nodup_cons.mp hnd
    intro r hr hj
    have hunf : setFlagById (r0 :: rs) i
        = if r0.id == i then { r0 with reminder_sent := "yes" } :: rs
          else r0 :: setFlagById rs i := rfl
    cases hb : r0.id == i
    · rw [hunf, if_neg (by simp [hb])] at hr
      rcases List.mem_cons.mp hr with rfl | hr'
      · exact absurd hj (beq_eq_false_iff_ne.mp hb)
      · exact ih htail r hr' hj
    · rw [hunf, if_pos hb] at hr
      rcases List.mem_cons.mp hr with rfl | hr'
      · exact (by decide : reminderFlag "yes" = true)
      · exact absurd (hj ▸ List.mem_map_of_mem SlotRec.id hr')
          (by rwa [eq_of_beq hb] at hhead)

/-- Folding the per-row flag writes of a tick flags every id that is due
(and keeps ids flagged before). -/
lemma flag_fold (due : List SlotRec) :
    ∀ (l : List SlotRec) (i : String), (l.map SlotRec.id).Nodup →
      ((∃ r ∈ due, r.id = i) ∨
        ∀ r ∈ l, r.id = i → reminderFlag r.reminder_sent = true) →
      ∀ r ∈ due.foldl (fun acc rec => setFlagById acc rec.id) l, r.id = i →
        reminderFlag r.reminder_sent = true := by
  induction due with
  | nil =>
    intro l i _ h
    rcases h with ⟨r, hr, _⟩ | h
    · exact absurd hr (List.not_mem_nil r)
    · exact h
  | cons d ds ih =>
    intro l i hnd h
    rw [List.foldl_cons]
    apply ih (setFlagById l d.id) i (by rw [setFlagById_map_id]; exact hnd)
    rcases h with ⟨r, hr, hri⟩ | h
    · rcases List.mem_cons.mp hr with rfl | hr'
      · right
        exact hri ▸ flag_set_setFlagById hnd
      · exact Or.inl ⟨r, hr', hri⟩
    · exact Or.inr (flag_preserved_setFlagById h)

/-- C5: on a tick with a registered destination, a confirmed slot with an
unset flag starting in `(now, now+15]` is notified exactly once and its
flag is written - even when emission fails - and a slot whose flag is
already set is never notified on this or any later tick. -/
theorem reminder_tick_C5 (st : SheetState) (c : String) (hteam : st.team_chat = some c)
    (now : Nat) (sendFails : SlotRec → Bool) (rec : SlotRec)
    (hnd : (st.slots.map SlotRec.id).Nodup)
    (hmem : rec ∈ st.slots) (hdue : dueForReminder now rec = true) :
    ((checkReminders st now sendFails).attempted.count rec = 1) ∧
    (sendFails rec = true → rec ∉ (checkReminders st now sendFails).delivered) ∧
    (∀ r ∈ (checkReminders st now sendFails).state.slots, r.id = rec.id →
      reminderFlag r.reminder_sent = true) ∧
    (∀ st2 now2 f2, st2.slots = (checkReminders st now sendFails).state.slots →
      ∀ r ∈ (checkReminders st2 now2 f2).attempted, r.id ≠ rec.id) ∧
    (∀ (st3 : SheetState) now3 f3 (r : SlotRec),
      reminderFlag r.reminder_sent = true →
      r ∉ (checkReminders st3 now3 f3).attempted) := by
  have hattempt : (checkReminders st now sendFails).attempted
      = st.slots.filter (dueForReminder now) := by
    simp [checkReminders, hteam]
  have hdeliv : (checkReminders st now sendFails).delivered
      = (st.slots.filter (dueForReminder now)).filter (fun r => !(sendFails r)) := by
    simp [checkReminders, hteam]
  have hstate : (checkReminders st now sendFails).state.slots
      = (st.slots.filter (dueForReminder now)).foldl
          (fun acc rec => setFlagById acc rec.id) st.slots := by
    simp [checkReminders, hteam]
  have hmemdue : rec ∈ st.slots.filter (dueForReminder now) :=
    List.mem_filter.mpr ⟨hmem, hdue⟩
  have hflag : ∀ r ∈ (checkReminders st now sendFails).state.slots, r.id = rec.id →
      reminderFlag r.reminder_sent = true := by
    rw [hstate]
    exact flag_fold _ st.slots rec.id hnd (Or.inl ⟨rec, hmemdue, rfl⟩)
  have hnotick : ∀ (st3 : SheetState) now3 f3 (r : SlotRec),
      reminderFlag r.reminder_sent = true →
      r ∉ (checkReminders st3 now3 f3).attempted := by
    intro st3 now3 f3 r hfl hmem3
    rcases ht3 : st3.team_chat with _ | c3
    · simp [checkReminders, ht3] at hmem3
    · simp only [checkReminders, ht3] at hmem3
      have hd3 := (List.mem_filter.mp hmem3).2
      rw [dueForReminder, hfl] at hd3
      simp at hd3
  refine ⟨?_, ?_, hflag, ?_, hnotick⟩
  · rw [hattempt]
    exact List.count_eq_one_of_mem ((List.Nodup.of_map _ hnd).filter _) hmemdue
  · intro hsf hmem'
    rw [hdeliv] at hmem'
    have := (List.mem_filter.mp hmem').2
    rw [hsf] at this
    simp at this
  · intro st2 now2 f2 hslots r hr hreq
    rcases ht2 : st2.team_chat with _ | c2
    · simp [checkReminders, ht2] at hr
    · simp only [checkReminders, ht2] at hr
      obtain ⟨hrmem, hrdue⟩ := List.mem_filter.mp hr
      have hfl := hflag r (by rw [← hslots]; exact hrmem) hreq
      rw [dueForReminder, hfl] at hrdue
      simp at hrdue

/-- C5 witness: with emission failing on every send, the due slot `recA`
(start 09:00, tick at 08:50) is attempted exactly once, not delivered, and
its stored row ends up flagged. -/
theorem reminder_tick_C5_witness :
    ((checkReminders stW ((makeDt "2024-05-20" "08:50").getD 0)
        (fun _ => true)).attempted.count recA = 1) ∧
    recA ∉ (checkReminders stW ((makeDt "2024-05-20" "08:50").getD 0)
        (fun _ => true)).delivered ∧
    reminderFlag ({ recA with reminder_sent := "yes" } : SlotRec).reminder_sent
      = true :=
  ⟨(reminder_tick_C5 stW "g1" rfl ((makeDt "2024-05-20" "08:50").getD 0)
      (fun _ => true) recA (by decide) (by decide) (by decide)).1,
   (reminder_tick_C5 stW "g1" rfl ((makeDt "2024-05-20" "08:50").getD 0)
      (fun _ => true) recA (by decide) (by decide) (by decide)).2.1 rfl,
   (reminder_tick_C5 stW "g1" rfl ((makeDt "2024-05-20" "08:50").getD 0)
      (fun _ => true) recA (by decide) (by decide) (by decide)).2.2.1
     { recA with reminder_sent := "yes" } (by decide) (by decide)⟩

end NextGen
